import Mathlib

/-!
Verification of the extension-host launcher and window lifecycle bridge in
`packages/core-electron-main/src/bootstrap/window.ts` (classes `CodeWindow`
and `KTNodeProcess`), as a shallow embedding in Lean 4.

Conventions:
* A TS `ProcessEnv` object is modelled as a total function
  `String → Option String`; `none` stands for a variable that is absent or
  holds the value `undefined` (Node's `fork` omits such keys from the child
  process environment, so the two are indistinguishable to the child).
* Promises are modelled by an explicit settlement state; error payloads are
  opaque strings.
* Event-driven code is modelled by step functions on explicit state.
-/

namespace Sumi

/-- TS `ProcessEnv`: variable name to optional value. -/
def ProcessEnv : Type := String → Option String

/-- The environment object built inside `KTNodeProcess.start`:
`{ ...process.env, KTELECTRON: '1', EXTENSION_HOST_ENTRY: this.extensionEntry }`
followed by the unconditional assignment
`forkOptions.env!.WORKSPACE_DIR = workspace`.
The later writes win over the spread-in parent environment. -/
def forkEnv (parentEnv : ProcessEnv) (extensionEntry : String)
    (workspace : Option String) : ProcessEnv :=
  fun key =>
    if key = "WORKSPACE_DIR" then workspace
    else if key = "KTELECTRON" then some "1"
    else if key = "EXTENSION_HOST_ENTRY" then some extensionEntry
    else parentEnv key

/-- The launch-argument list built inside `KTNodeProcess.start`:
`forkArgs.push('--listenPath', rpcListenPath)` on an initially empty array. -/
def forkArgs (rpcListenPath : String) : List String :=
  ["--listenPath", rpcListenPath]

/-- Settlement state of the `ready` promise of a `KTNodeProcess`. -/
inductive PromiseState where
  | pending
  | resolved
  | rejected (err : String)
deriving Repr, DecidableEq

/-- An event observed by the promise executor in `KTNodeProcess.start`:
a message on the child's IPC control channel, or an `error` event. -/
inductive ChildEvent where
  | message (payload : String)
  | errorEvent (err : String)
deriving Repr, DecidableEq

/-- One step of the executor installed in `KTNodeProcess.start`:
`message === 'ready'` resolves; any other message only logs; an `error`
event rejects with the error. A settled promise never changes again
(JS promise semantics: later resolve/reject calls are no-ops). -/
def readyStep (s : PromiseState) (ev : ChildEvent) : PromiseState :=
  match s with
  | .pending =>
    match ev with
    | .message payload => if payload = "ready" then .resolved else .pending
    | .errorEvent err => .rejected err
  | settled => settled

/-- The state of the `ready` promise right after the executor's `try` block
runs: `pending` when `fork` and the listener wiring succeed, `rejected e`
when spawning throws synchronously (the `catch (e) { reject(e) }` branch). -/
def spawnOutcomeState (spawn : Except String Unit) : PromiseState :=
  match spawn with
  | .ok _ => .pending
  | .error e => .rejected e

/-- Folding a sequence of control-channel events through the executor. -/
def runChildEvents (s : PromiseState) (evs : List ChildEvent) : PromiseState :=
  evs.foldl readyStep s

/-- State of one `KTNodeProcess` instance relevant to `start`:
the memoized `ready` promise (identified by a promise id) and the list of
`fork` calls performed so far (rpcListenPath and workspace of each). -/
structure KTNodeProcessState where
  ready : Option Nat
  forks : List (String × Option String)
deriving Repr, DecidableEq

/-- A fresh `KTNodeProcess` (constructor leaves `ready` unset). -/
def KTNodeProcessState.init : KTNodeProcessState :=
  { ready := none, forks := [] }

/-- The method `KTNodeProcess.start(rpcListenPath, workspace)`: when `this.ready` is
unset, fork a new child process and memoize a fresh promise; otherwise
return the memoized promise untouched. Returns the updated state and the
identity of the returned promise. -/
def ktStart (s : KTNodeProcessState) (rpcListenPath : String)
    (workspace : Option String) : KTNodeProcessState × Nat :=
  match s.ready with
  | some p => (s, p)
  | none =>
    ({ ready := some s.forks.length,
       forks := s.forks ++ [(rpcListenPath, workspace)] }, s.forks.length)

/-- The observable actions performed by `CodeWindow.start`, in order. -/
inductive WindowAction where
  | clearNode
  | forkNode
  | loadURL
  | showWindow
  | registerPushListener
  | bindEvents
  | logError
deriving Repr, DecidableEq

/-- The method `CodeWindow.start`: `clear()`, create a `KTNodeProcess`, `await`
its `start`; on success load the browser URL, show the window, register
the `did-finish-load` push listener and bind events; the whole `try` body
is guarded by `catch (e) { getLogger().error(e) }`, so a rejection only
logs and skips the rest. The result is the list of actions performed —
the function always returns normally (nothing rethrows). -/
def codeWindowStart (nodeStart : Except String Unit) : List WindowAction :=
  [.clearNode, .forkNode] ++
  match nodeStart with
  | .ok _ => [.loadURL, .showWindow, .registerPushListener, .bindEvents]
  | .error _ => [.logError]

/-- How a listener was registered on an event emitter:
`on` (persistent) or `once` (removed after its first invocation). -/
inductive ListenerKind where
  | on
  | once
deriving Repr, DecidableEq

/-- The `webContents` listeners for `did-finish-load` that send the
transport address, together with the number of sends performed so far. -/
structure WebContents where
  listeners : List ListenerKind
  sends : Nat
deriving Repr, DecidableEq

/-- One `did-finish-load` event: every registered listener fires (each
sends the transport address once); `once`-listeners are then removed. -/
def fireDidFinishLoad (wc : WebContents) : WebContents :=
  { listeners := wc.listeners.filter (fun l => l = .on),
    sends := wc.sends + wc.listeners.length }

/-- Firing `n` consecutive `did-finish-load` events. -/
def fireLoads : Nat → WebContents → WebContents
  | 0, wc => wc
  | n + 1, wc => fireLoads n (fireDidFinishLoad wc)

/-- The registration performed by a successful `CodeWindow.start`:
`this.browser.webContents.on('did-finish-load', () => send(listenPath))` —
note `on`, not `once`. -/
def registerListenPathPush (wc : WebContents) : WebContents :=
  { wc with listeners := wc.listeners ++ [.on] }

/-- Number of times the transport address has been sent after a successful
`start()` (beginning from a fresh `webContents`) followed by `n`
`did-finish-load` events. -/
def pushSendsAfterLoads (n : Nat) : Nat :=
  (fireLoads n (registerListenPathPush ⟨[], 0⟩)).sends

/-- Per-window data feeding the `window-metadata` responder. -/
structure WindowReg where
  id : Nat
  workspace : Option String
  metadata : String
deriving Repr, DecidableEq

/-- App-level configuration read by the responder. -/
structure ElectronAppConfig where
  webviewPreload : String
  plainWebviewPreload : String
  extensionDir : String
deriving Repr, DecidableEq

/-- The serialized reply a `metadataResponser` assigns to
`event.returnValue`. -/
structure MetadataResponse where
  workspace : Option String
  webviewPreload : String
  plainWebviewPreload : String
  extensionDir : String
  metadata : String
deriving Repr, DecidableEq

/-- The reply computed by the responder of one window. -/
def mkMetadataResponse (cfg : ElectronAppConfig) (w : WindowReg) :
    MetadataResponse :=
  { workspace := w.workspace,
    webviewPreload := cfg.webviewPreload,
    plainWebviewPreload := cfg.plainWebviewPreload,
    extensionDir := cfg.extensionDir,
    metadata := w.metadata }

/-- One `metadataResponser` handling a `window-metadata` query: it assigns
`event.returnValue` only when `windowId === this.browser.id`, otherwise it
leaves the current value untouched. -/
def metadataStep (cfg : ElectronAppConfig) (windowId : Nat)
    (acc : Option MetadataResponse) (w : WindowReg) :
    Option MetadataResponse :=
  if windowId = w.id then some (mkMetadataResponse cfg w) else acc

/-- The multiplexer `ipcMain` delivering a `window-metadata` query to every registered
responder in registration order; the reply is whatever `event.returnValue`
holds afterwards. -/
def dispatchMetadata (cfg : ElectronAppConfig) (ws : List WindowReg)
    (windowId : Nat) : Option MetadataResponse :=
  ws.foldl (metadataStep cfg windowId) none

/-- The effects of the `new-window` handler bound by
`CodeWindow.bindEvents`. -/
structure NewWindowResult where
  preventDefaultCalled : Bool
  openExternalCalled : Bool
deriving Repr, DecidableEq

/-- The test `url.indexOf('http') === 0`: the characters of `"http"` lead
the characters of `url`. -/
def startsWithHttp (url : String) : Bool :=
  List.isPrefixOf "http".data url.data

/-- The `new-window` handler: when the event is not already
default-prevented it calls `event.preventDefault()` unconditionally and
calls `shell.openExternal(url)` iff `url.indexOf('http') === 0`; when the
event is already prevented it does nothing. -/
def handleNewWindow (defaultPrevented : Bool) (url : String) :
    NewWindowResult :=
  if !defaultPrevented then
    { preventDefaultCalled := true,
      openExternalCalled := startsWithHttp url }
  else
    { preventDefaultCalled := false, openExternalCalled := false }

/-- The child-process-ownership state of one `CodeWindow`: the current
`node` reference, plus a ledger for the invariant proof — which process
ids this window ever forked, which of them were killed, and a fresh-id
counter. -/
structure CodeWindowProcState where
  node : Option Nat
  spawned : List Nat
  killed : List Nat
  nextId : Nat
deriving Repr, DecidableEq

/-- A fresh `CodeWindow` (`node` initialized to `null`). -/
def CodeWindowProcState.init : CodeWindowProcState :=
  { node := none, spawned := [], killed := [], nextId := 0 }

/-- The method `CodeWindow.clear`: when `this.node` is non-null, dispose it (which
kills the child process) and null the reference. -/
def cwClear (s : CodeWindowProcState) : CodeWindowProcState :=
  match s.node with
  | some i => { s with node := none, killed := s.killed ++ [i] }
  | none => s

/-- The process-relevant part of `CodeWindow.start`: `this.clear()`, then
create and start a fresh `KTNodeProcess` assigned to `this.node`. -/
def cwStart (s : CodeWindowProcState) : CodeWindowProcState :=
  { node := some (cwClear s).nextId
    spawned := (cwClear s).spawned ++ [(cwClear s).nextId]
    killed := (cwClear s).killed
    nextId := (cwClear s).nextId + 1 }

/-- The method `CodeWindow.dispose`: `this.clear()` (the superclass disposal does not
touch the child process). -/
def cwDispose (s : CodeWindowProcState) : CodeWindowProcState :=
  cwClear s

/-- The operations of a `CodeWindow` that touch its child process. -/
inductive WindowOp where
  | start
  | clear
  | dispose
deriving Repr, DecidableEq

/-- Apply one lifecycle operation. -/
def applyWindowOp (s : CodeWindowProcState) : WindowOp → CodeWindowProcState
  | .start => cwStart s
  | .clear => cwClear s
  | .dispose => cwDispose s

/-- Run a sequence of lifecycle operations. -/
def runWindowOps (s : CodeWindowProcState) (ops : List WindowOp) :
    CodeWindowProcState :=
  ops.foldl applyWindowOp s

/-- The child processes of this window that are still alive:
forked and never killed. -/
def liveProcs (s : CodeWindowProcState) : List Nat :=
  s.spawned.filter (fun i => decide (i ∉ s.killed))

/-- Inductive invariant of the `CodeWindow` ownership state: forked ids
are below the fresh counter and pairwise distinct, and every live forked
process is the one currently referenced by `node`. -/
def WindowInv (s : CodeWindowProcState) : Prop :=
  (∀ i ∈ s.spawned, i < s.nextId) ∧
  s.spawned.Nodup ∧
  (∀ i ∈ s.spawned, i ∉ s.killed → s.node = some i)

end Sumi

namespace Sumi

/-- C1: readiness handshake of `KTNodeProcess.start`. A pending promise is
resolved exactly by the control-channel message `'ready'`; any other message
leaves it pending; an `error` event rejects it with that error; a
synchronous spawn exception rejects it with the thrown value; and a settled
promise is never changed by later events. -/
theorem ktnodeprocess_readiness (payload err : String) (s : PromiseState)
    (ev : ChildEvent) (hp : payload ≠ "ready") (hs : s ≠ .pending) :
    readyStep .pending (.message "ready") = .resolved ∧
    readyStep .pending (.message payload) = .pending ∧
    readyStep .pending (.errorEvent err) = .rejected err ∧
    spawnOutcomeState (.error err) = .rejected err ∧
    spawnOutcomeState (.ok ()) = .pending ∧
    readyStep s ev = s := by
  refine ⟨rfl, ?_, rfl, rfl, rfl, ?_⟩
  · simp [readyStep, hp]
  · cases s with
    | pending => exact absurd rfl hs
    | resolved => rfl
    | rejected e => rfl

/-- Witness for C1 at concrete inputs. -/
theorem ktnodeprocess_readiness_witness :
    readyStep .pending (.message "init") = .pending ∧
    readyStep .resolved (.errorEvent "boom") = .resolved := by
  have h := ktnodeprocess_readiness "init" "boom" .resolved
    (.errorEvent "boom") (by decide) (by decide)
  exact ⟨h.2.1, h.2.2.2.2.2⟩

/-- C2: `KTNodeProcess.start` is idempotent. A second call on the same
instance, with arbitrary (possibly different) arguments, leaves the state
unchanged — in particular it performs no new `fork` — and returns the very
same promise as the first call. -/
theorem ktStart_idempotent (s : KTNodeProcessState) (a₁ a₂ : String)
    (w₁ w₂ : Option String) :
    ktStart (ktStart s a₁ w₁).1 a₂ w₂ = ktStart s a₁ w₁ := by
  cases h : s.ready with
  | some p => simp [ktStart, h]
  | none => simp [ktStart, h]

/-- C3: with workspace `"/proj"` and transport address `"/tmp/abc.sock"`,
the child environment contains `KTELECTRON="1"`, the extension-host entry
under `EXTENSION_HOST_ENTRY`, and `WORKSPACE_DIR="/proj"`, and the launch
arguments are exactly `["--listenPath", "/tmp/abc.sock"]`. -/
theorem ktStart_fork_config (parentEnv : ProcessEnv) (entry : String) :
    forkEnv parentEnv entry (some "/proj") "KTELECTRON" = some "1" ∧
    forkEnv parentEnv entry (some "/proj") "EXTENSION_HOST_ENTRY" =
      some entry ∧
    forkEnv parentEnv entry (some "/proj") "WORKSPACE_DIR" = some "/proj" ∧
    forkArgs "/tmp/abc.sock" = ["--listenPath", "/tmp/abc.sock"] := by
  refine ⟨?_, ?_, rfl, rfl⟩ <;> rfl

/-- C8: with no workspace, `WORKSPACE_DIR` is unset in the child
environment (the code assigns `undefined`, which Node's `fork` omits),
regardless of what the parent environment holds for it. -/
theorem ktStart_no_workspace_unset (parentEnv : ProcessEnv) (entry : String) :
    forkEnv parentEnv entry none "WORKSPACE_DIR" = none := rfl

/-- C9: the child environment is the parent environment with only
`KTELECTRON`, `EXTENSION_HOST_ENTRY` and `WORKSPACE_DIR` added or
overridden: every other variable is inherited unchanged. -/
theorem forkEnv_inherits_parent (parentEnv : ProcessEnv) (entry : String)
    (workspace : Option String) (key : String)
    (h₁ : key ≠ "KTELECTRON") (h₂ : key ≠ "EXTENSION_HOST_ENTRY")
    (h₃ : key ≠ "WORKSPACE_DIR") :
    forkEnv parentEnv entry workspace key = parentEnv key := by
  simp [forkEnv, h₁, h₂, h₃]

/-- Witness for C9 at a concrete parent environment and key. -/
theorem forkEnv_inherits_parent_witness :
    forkEnv (fun k => if k = "PATH" then some "/usr/bin" else none)
      "/entry.js" (some "/proj") "PATH" = some "/usr/bin" :=
  forkEnv_inherits_parent
    (fun k => if k = "PATH" then some "/usr/bin" else none)
    "/entry.js" (some "/proj") "PATH" (by decide) (by decide) (by decide)

/-- C4: `CodeWindow.start` on a rejected launcher promise only logs the
error: loading the URL, showing the window, registering the post-load push
and binding events are all skipped, a single fork was attempted (no
retry), and the function still returns normally (it is total, so nothing
propagates to the caller). -/
theorem codewindow_start_failure (e : String) :
    codeWindowStart (.error e) =
      [.clearNode, .forkNode, .logError] ∧
    WindowAction.loadURL ∉ codeWindowStart (.error e) ∧
    WindowAction.showWindow ∉ codeWindowStart (.error e) ∧
    WindowAction.registerPushListener ∉ codeWindowStart (.error e) ∧
    WindowAction.bindEvents ∉ codeWindowStart (.error e) ∧
    WindowAction.logError ∈ codeWindowStart (.error e) ∧
    (codeWindowStart (.error e)).count .forkNode = 1 := by
  refine ⟨rfl, ?_, ?_, ?_, ?_, ?_, ?_⟩ <;> simp [codeWindowStart]

theorem windowInv_init : WindowInv CodeWindowProcState.init := by
  refine ⟨?_, ?_, ?_⟩ <;> simp [CodeWindowProcState.init]

theorem windowInv_clear :
    ∀ {s : CodeWindowProcState}, WindowInv s → WindowInv (cwClear s)
  | ⟨none, _, _, _⟩, h => h
  | ⟨some n, spawned, killed, nid⟩, ⟨hlt, hnd, hnode⟩ => by
    refine ⟨hlt, hnd, ?_⟩
    intro i hi hik
    exfalso
    have hin : i ∉ killed := fun hmem => hik (List.mem_append_left _ hmem)
    have hsome : some n = some i := hnode i hi hin
    obtain rfl : n = i := Option.some.inj hsome
    exact hik (List.mem_append_right _ (List.mem_singleton.2 rfl))

theorem clear_all_dead :
    ∀ {s : CodeWindowProcState}, WindowInv s →
      ∀ i ∈ (cwClear s).spawned, i ∈ (cwClear s).killed
  | ⟨none, _, _, _⟩, ⟨_, _, hnode⟩, i, hi => by
    by_contra hik
    exact Option.noConfusion (hnode i hi hik)
  | ⟨some n, spawned, killed, nid⟩, ⟨_, _, hnode⟩, i, hi => by
    by_contra hik
    have hin : i ∉ killed := fun hmem => hik (List.mem_append_left _ hmem)
    have hsome : some n = some i := hnode i hi hin
    obtain rfl : n = i := Option.some.inj hsome
    exact hik (List.mem_append_right _ (List.mem_singleton.2 rfl))

theorem windowInv_start {s : CodeWindowProcState} (h : WindowInv s) :
    WindowInv (cwStart s) := by
  obtain ⟨hlt, hnd, _⟩ := windowInv_clear h
  have hdead := clear_all_dead h
  refine ⟨?_, ?_, ?_⟩
  · intro i hi
    rcases List.mem_append.1 hi with hmem | hmem
    · exact Nat.lt_succ_of_lt (hlt i hmem)
    · obtain rfl : i = (cwClear s).nextId := List.mem_singleton.1 hmem
      exact Nat.lt_succ_self _
  · have hfresh : (cwClear s).nextId ∉ (cwClear s).spawned :=
      fun hmem => Nat.lt_irrefl _ (hlt _ hmem)
    simp [cwStart, List.nodup_append, hnd, hfresh]
  · intro i hi hik
    rcases List.mem_append.1 hi with hmem | hmem
    · exact absurd (hdead i hmem) hik
    · obtain rfl : i = (cwClear s).nextId := List.mem_singleton.1 hmem
      rfl

theorem windowInv_apply {s : CodeWindowProcState} (h : WindowInv s) :
    ∀ op, WindowInv (applyWindowOp s op)
  | .start => windowInv_start h
  | .clear => windowInv_clear h
  | .dispose => windowInv_clear h

theorem windowInv_run :
    ∀ (ops : List WindowOp) {s : CodeWindowProcState},
      WindowInv s → WindowInv (runWindowOps s ops)
  | [], _, h => h
  | op :: ops, _, h => windowInv_run ops (windowInv_apply h op)

theorem length_le_one_of_all_eq {l : List Nat} {n : Nat} (hnd : l.Nodup)
    (h : ∀ a ∈ l, a = n) : l.length ≤ 1 := by
  cases l with
  | nil => simp
  | cons a t =>
    cases t with
    | nil => simp
    | cons b u =>
      exfalso
      have h1 := List.nodup_cons.1 hnd
      have hab : a ≠ b := fun hab => h1.1 (by simp [hab])
      exact hab ((h a (by simp)).trans (h b (by simp)).symm)

theorem live_le_one {s : CodeWindowProcState} (h : WindowInv s) :
    (liveProcs s).length ≤ 1 := by
  obtain ⟨_, hnd, hnode⟩ := h
  cases hn : s.node with
  | none =>
    have hempty : liveProcs s = [] := by
      refine List.filter_eq_nil_iff.2 ?_
      intro i hi
      simp only [decide_eq_true_eq]
      intro hik
      have hcontra := hnode i hi hik
      rw [hn] at hcontra
      exact Option.noConfusion hcontra
    simp [hempty]
  | some n =>
    have hall : ∀ a ∈ liveProcs s, a = n := by
      intro a ha
      have hmem := List.mem_filter.1 ha
      have hik : a ∉ s.killed := by simpa using hmem.2
      have hcontra := hnode a hmem.1 hik
      rw [hn] at hcontra
      exact (Option.some.inj hcontra).symm
    exact length_le_one_of_all_eq (hnd.filter _) hall

/-- C5: every reachable `CodeWindow` ownership state holds at most one
live child process; `clear()` and `dispose()` null the `node` reference,
and `start()` builds its new process on top of the cleared state (the old
process is killed and the reference replaced before the new fork). -/
theorem codewindow_at_most_one_live_process (ops : List WindowOp)
    (s : CodeWindowProcState) :
    (liveProcs (runWindowOps CodeWindowProcState.init ops)).length ≤ 1 ∧
    (cwClear s).node = none ∧
    (cwDispose s).node = none ∧
    (cwStart s).node = some (cwClear s).nextId ∧
    (cwStart s).killed = (cwClear s).killed := by
  refine ⟨live_le_one (windowInv_run ops windowInv_init), ?_, ?_, rfl, rfl⟩
  · obtain ⟨node, sp, k, n⟩ := s
    cases node <;> rfl
  · obtain ⟨node, sp, k, n⟩ := s
    cases node <;> rfl

/-- C6 counterexample: after one successful `start()` and two
`did-finish-load` events the transport address has been sent twice, not
exactly once — the listener is registered with `on`, not `once`, so it
fires again on every later load. -/
theorem push_listener_not_one_shot :
    pushSendsAfterLoads 2 = 2 ∧ pushSendsAfterLoads 2 ≠ 1 := by decide

theorem fireLoads_single_on (n s : Nat) :
    fireLoads n ⟨[.on], s⟩ = ⟨[.on], s + n⟩ := by
  induction n generalizing s with
  | zero => rfl
  | succ n ih =>
    show fireLoads n (fireDidFinishLoad ⟨[.on], s⟩) = _
    have hfire : fireDidFinishLoad ⟨[.on], s⟩ = ⟨[.on], s + 1⟩ := rfl
    rw [hfire, ih]
    congr 1
    omega

/-- C6 amended: the post-load push listener registered by a successful
`CodeWindow.start` is persistent — the transport address is delivered once
per `did-finish-load` event, so after `n` such events it has been sent
`n` times. -/
theorem push_sends_once_per_load (n : Nat) : pushSendsAfterLoads n = n := by
  have hreg : registerListenPathPush ⟨[], 0⟩ = ⟨[.on], 0⟩ := rfl
  show (fireLoads n (registerListenPathPush ⟨[], 0⟩)).sends = n
  rw [hreg, fireLoads_single_on]
  exact Nat.zero_add n

/-- C7: a `metadataResponser` whose window id differs from the queried
identity leaves `event.returnValue` untouched, so the reply to a
`window-metadata` query for identity `W` is computed exclusively from the
registrations whose browser id equals `W`: registrations for other
windows, whatever their workspace or metadata, never influence it. -/
theorem metadata_no_cross_window_leak (cfg : ElectronAppConfig)
    (ws : List WindowReg) (W : Nat) :
    dispatchMetadata cfg ws W =
      dispatchMetadata cfg (ws.filter (fun w => W = w.id)) W := by
  suffices h : ∀ (l : List WindowReg) (acc : Option MetadataResponse),
      l.foldl (metadataStep cfg W) acc =
        (l.filter (fun w => W = w.id)).foldl (metadataStep cfg W) acc by
    exact h ws none
  intro l
  induction l with
  | nil => intro acc; rfl
  | cons w l ih =>
    intro acc
    by_cases h : W = w.id
    · rw [List.foldl_cons, List.filter_cons, if_pos (decide_eq_true h),
        List.foldl_cons]
      exact ih _
    · have hstep : metadataStep cfg W acc w = acc := by
        simp [metadataStep, h]
      rw [List.foldl_cons, List.filter_cons,
        if_neg (by simpa using h), hstep]
      exact ih acc

/-- C10: on a `new-window` event that is not already default-prevented,
the handler always prevents the window's own navigation and invokes the
external opener exactly when the URL string begins with the four
characters `http` — so `httpx://…` is opened externally while a
non-`http`-led scheme is silently dropped; an already-prevented event is
left alone. -/
theorem bindEvents_new_window_policy (url : String) :
    (handleNewWindow false url).preventDefaultCalled = true ∧
    ((handleNewWindow false url).openExternalCalled = true ↔
      ∃ rest, "http".data ++ rest = url.data) ∧
    handleNewWindow false "httpx://example.com" = ⟨true, true⟩ ∧
    handleNewWindow false "ftp://example.com" = ⟨true, false⟩ ∧
    handleNewWindow true url = ⟨false, false⟩ := by
  refine ⟨rfl, ?_, by decide, by decide, rfl⟩
  show startsWithHttp url = true ↔ _
  exact List.isPrefixOf_iff_prefix

end Sumi
